import Mathlib

set_option maxHeartbeats 1000000

/-! Verification of the Grimnir Radio API client
    (docs/api/examples/python/grimnir_client.py): credential headers,
    request dispatch, response translation and the JSON codec contract. -/

/-- JSON values as exchanged by the client: the shallow embedding of the
Python dict / list / str / int / bool / None payloads that
`response.json()` produces and `json=data` serializes. -/
inductive Json where
  | null : Json
  | bool (b : Bool) : Json
  | num (n : Int) : Json
  | str (s : String) : Json
  | arr (elems : List Json) : Json
  | obj (fields : List (String × Json)) : Json

/-- Decimal digit to its character. -/
def digitChar : Nat → Char
  | 0 => '0'
  | 1 => '1'
  | 2 => '2'
  | 3 => '3'
  | 4 => '4'
  | 5 => '5'
  | 6 => '6'
  | 7 => '7'
  | 8 => '8'
  | _ => '9'

/-- Decimal rendering of a natural number, most significant digit first. -/
def renderNat (n : Nat) : List Char :=
  if _h : n < 10 then [digitChar n]
  else renderNat (n / 10) ++ [digitChar (n % 10)]
termination_by n
decreasing_by
  exact Nat.div_lt_self (by omega) (by omega)

/-- Decimal rendering of an integer (a leading minus sign when negative). -/
def renderInt (i : Int) : List Char :=
  if i < 0 then '-' :: renderNat i.natAbs else renderNat i.toNat

/-- JSON string-body escaping: quote and backslash get a backslash escape,
all other characters are emitted verbatim. -/
def escapeList : List Char → List Char
  | [] => []
  | c :: cs =>
    if c = '"' ∨ c = '\\' then '\\' :: c :: escapeList cs
    else c :: escapeList cs

mutual

/-- JSON serializer (the model of the wire format produced for `json=data`
and consumed by `response.json()`). -/
def Json.render : Json → List Char
  | Json.null => ['n', 'u', 'l', 'l']
  | Json.bool true => ['t', 'r', 'u', 'e']
  | Json.bool false => ['f', 'a', 'l', 's', 'e']
  | Json.num i => renderInt i
  | Json.str s => '"' :: (escapeList s.data ++ ['"'])
  | Json.arr xs => '[' :: (renderElems xs ++ [']'])
  | Json.obj kvs => '{' :: (renderFields kvs ++ ['}'])

/-- Array elements, comma separated (first element). -/
def renderElems : List Json → List Char
  | [] => []
  | x :: xs => x.render ++ renderElemsTail xs

/-- Array elements after the first: each preceded by a comma. -/
def renderElemsTail : List Json → List Char
  | [] => []
  | x :: xs => ',' :: (x.render ++ renderElemsTail xs)

/-- Object fields, comma separated (first field). -/
def renderFields : List (String × Json) → List Char
  | [] => []
  | (k, v) :: kvs =>
    '"' :: (escapeList k.data ++ '"' :: ':' :: (v.render ++ renderFieldsTail kvs))

/-- Object fields after the first: each preceded by a comma. -/
def renderFieldsTail : List (String × Json) → List Char
  | [] => []
  | (k, v) :: kvs =>
    ',' :: '"' :: (escapeList k.data ++ '"' :: ':' :: (v.render ++ renderFieldsTail kvs))

end

/-- Longest digit run at the front of the input, and the rest. -/
def takeDigits : List Char → List Char × List Char
  | [] => ([], [])
  | c :: cs =>
    if c.isDigit then
      let p := takeDigits cs
      (c :: p.1, p.2)
    else ([], c :: cs)

/-- Numeric value of a digit character. -/
def digitVal (c : Char) : Nat := c.toNat - 48

/-- Value of a list of decimal digits, most significant first. -/
def parseNatDigits (ds : List Char) : Nat :=
  ds.foldl (fun a c => 10 * a + digitVal c) 0

/-- Parse an integer literal (optional minus sign, then digits). -/
def parseNumber (cs : List Char) : Option (Int × List Char) :=
  if cs.head? = some '-' then
    let p := takeDigits cs.tail
    if p.1.isEmpty then none else some (-(parseNatDigits p.1 : Int), p.2)
  else
    let p := takeDigits cs
    if p.1.isEmpty then none else some ((parseNatDigits p.1 : Int), p.2)

/-- Parse a string body (after the opening quote) up to the closing quote,
undoing backslash escapes. -/
def parseStringBody : List Char → Option (List Char × List Char)
  | [] => none
  | c :: rest =>
    if c = '"' then some ([], rest)
    else if c = '\\' then
      match rest with
      | [] => none
      | d :: rest2 => (parseStringBody rest2).map (fun p => (d :: p.1, p.2))
    else (parseStringBody rest).map (fun p => (c :: p.1, p.2))

mutual

/-- Fueled recursive-descent JSON value parser. -/
def parseVal : Nat → List Char → Option (Json × List Char)
  | 0, _ => none
  | fuel + 1, cs =>
    match cs with
    | [] => none
    | c :: rest =>
      if c.isDigit ∨ c = '-' then
        (parseNumber (c :: rest)).map (fun p => (Json.num p.1, p.2))
      else if c = '"' then
        (parseStringBody rest).map (fun p => (Json.str (String.mk p.1), p.2))
      else if c = '[' then
        (parseElems fuel rest).map (fun p => (Json.arr p.1, p.2))
      else if c = '{' then
        (parseFields fuel rest).map (fun p => (Json.obj p.1, p.2))
      else if c = 'n' then
        if rest.take 3 = ['u', 'l', 'l'] then some (Json.null, rest.drop 3) else none
      else if c = 't' then
        if rest.take 3 = ['r', 'u', 'e'] then some (Json.bool true, rest.drop 3) else none
      else if c = 'f' then
        if rest.take 4 = ['a', 'l', 's', 'e'] then some (Json.bool false, rest.drop 4) else none
      else none

/-- Array contents after the opening bracket. -/
def parseElems : Nat → List Char → Option (List Json × List Char)
  | 0, _ => none
  | fuel + 1, cs =>
    if cs.head? = some ']' then some ([], cs.tail)
    else
      match parseVal fuel cs with
      | none => none
      | some (v, cs1) =>
        match parseElemsTail fuel cs1 with
        | none => none
        | some (vs, cs2) => some (v :: vs, cs2)

/-- Array contents after the first element: a comma then an element, or the
closing bracket. -/
def parseElemsTail : Nat → List Char → Option (List Json × List Char)
  | 0, _ => none
  | fuel + 1, cs =>
    if cs.head? = some ']' then some ([], cs.tail)
    else if cs.head? = some ',' then
      match parseVal fuel cs.tail with
      | none => none
      | some (v, cs1) =>
        match parseElemsTail fuel cs1 with
        | none => none
        | some (vs, cs2) => some (v :: vs, cs2)
    else none

/-- Object contents after the opening brace. -/
def parseFields : Nat → List Char → Option (List (String × Json) × List Char)
  | 0, _ => none
  | fuel + 1, cs =>
    if cs.head? = some '}' then some ([], cs.tail)
    else if cs.head? = some '"' then
      match parseStringBody cs.tail with
      | none => none
      | some (k, cs1) =>
        if cs1.head? = some ':' then
          match parseVal fuel cs1.tail with
          | none => none
          | some (v, cs2) =>
            match parseFieldsTail fuel cs2 with
            | none => none
            | some (kvs, cs3) => some ((String.mk k, v) :: kvs, cs3)
        else none
    else none

/-- Object contents after the first field: a comma then a field, or the
closing brace. -/
def parseFieldsTail : Nat → List Char → Option (List (String × Json) × List Char)
  | 0, _ => none
  | fuel + 1, cs =>
    if cs.head? = some '}' then some ([], cs.tail)
    else if cs.head? = some ',' then
      if cs.tail.head? = some '"' then
        match parseStringBody cs.tail.tail with
        | none => none
        | some (k, cs1) =>
          if cs1.head? = some ':' then
            match parseVal fuel cs1.tail with
            | none => none
            | some (v, cs2) =>
              match parseFieldsTail fuel cs2 with
              | none => none
              | some (kvs, cs3) => some ((String.mk k, v) :: kvs, cs3)
          else none
      else none
    else none

end

/-- JSON parser over a whole body string: the model of `json.loads` as used
by `response.json()`; trailing garbage is rejected. -/
def Json.parse (s : String) : Option Json :=
  match parseVal s.length s.data with
  | some (v, []) => some v
  | _ => none

/-- The raw HTTP response the transport hands back: status code and body
text (the `response` object of the `requests` library, as far as the client
reads it). -/
structure RawResponse where
  status_code : Nat
  text : String

/-- The structured API error (`GrimnirAPIError.__init__`): status code, the
raw body text as `message`, and the endpoint path. -/
structure GrimnirAPIError where
  status_code : Nat
  message : String
  endpoint : String

/-- The ways a dispatched call can fail: the structured API error raised for
status codes at or above 400, or a JSON decode failure of a success body. -/
inductive RequestError where
  | apiError (e : GrimnirAPIError)
  | decodeError (body : String)

/-- Response translation of `GrimnirClient._request` (its tail, lines 82-91):
status at or above 400 raises `GrimnirAPIError(status_code, text, endpoint)`
with the body text unparsed; otherwise a non-empty body is JSON-decoded and
an empty body yields the empty dict. -/
def requestResult (endpoint : String) (resp : RawResponse) : Except RequestError Json :=
  if 400 ≤ resp.status_code then
    Except.error (RequestError.apiError ⟨resp.status_code, resp.text, endpoint⟩)
  else if resp.text = "" then Except.ok (Json.obj [])
  else
    match Json.parse resp.text with
    | some j => Except.ok j
    | none => Except.error (RequestError.decodeError resp.text)

/-- Association-list lookup on the fields of a decoded JSON object (the
model of Python `dict` access on a `response.json()` result). -/
def lookupField : List (String × Json) → String → Option Json
  | [], _ => none
  | (k, v) :: kvs, key => if k = key then some v else lookupField kvs key

/-- `d.get(key)` on a decoded JSON object; `none` on any non-object. -/
def Json.getKey : Json → String → Option Json
  | Json.obj kvs, key => lookupField kvs key
  | _, _ => none

/-- `GrimnirClient.get_stations`: dispatch `GET /stations`, then
`response.get("stations", [])` - the envelope value when the key is
present, the empty list when it is absent. -/
def get_stations (resp : RawResponse) : Except RequestError Json :=
  (requestResult "/stations" resp).map
    (fun j => (j.getKey "stations").getD (Json.arr []))

/-- `GrimnirClient.export_schedule_ical` (lines 927-931): issues the GET
itself, bypassing `_request`, and returns `response.text` unconditionally -
no status-code check and no JSON decoding on this path. -/
def export_schedule_ical (resp : RawResponse) : Except RequestError String :=
  Except.ok resp.text

/-- `GrimnirClient._headers`: a dict with the JSON content type, plus
`X-API-Key` when `self.api_key` is truthy (Python: neither `None` nor the
empty string). -/
def GrimnirClient._headers (api_key : Option String) : List (String × String) :=
  ("Content-Type", "application/json") ::
    (match api_key with
     | some k => if k = "" then [] else [("X-API-Key", k)]
     | none => [])

/-- The header set `_request` sends: `_headers()`, with the content type
popped when a file attachment is present (lines 66-70). -/
def requestHeaders (api_key : Option String) (hasFiles : Bool) : List (String × String) :=
  if hasFiles then
    (GrimnirClient._headers api_key).filter (fun p => p.1 != "Content-Type")
  else GrimnirClient._headers api_key

/-- A multipart file attachment: filename, byte content, MIME type (the
single `file` field of `upload_media`). -/
structure FileAttachment where
  filename : String
  content : List Nat
  mime : String

/-- The body arguments `_request` forwards to the transport (lines 72-77):
`json=data if not files else None, files=files`. -/
def sentPayload (data : Option Json) (files : Option FileAttachment) :
    Option Json × Option FileAttachment :=
  (if files.isSome then none else data, files)

/-- Python `str.rstrip("/")`: drop every trailing slash. -/
def pyRstripSlash (s : String) : String :=
  String.mk ((s.data.reverse.dropWhile (fun c => c == '/')).reverse)

/-- `self.api_url` as built by `GrimnirClient.__init__` (lines 43-44):
the base URL with trailing slashes stripped, then the fixed prefix. -/
def apiUrl (base_url : String) : String := pyRstripSlash base_url ++ "/api/v1"

/-- The absolute request target of `_request` (line 65):
`f"{self.api_url}{endpoint}"`. -/
def requestUrl (base_url endpoint : String) : String := apiUrl base_url ++ endpoint

/-- Python string truthiness for an optional argument: present and
non-empty. -/
def truthyStr : Option String → Bool
  | some s => !(s == "")
  | none => false

/-- The `params` dict built by the pattern `params = {}; if arg:
params[key] = arg` shared by the optional-filter endpoints. -/
def optFilterParam (key : String) (v : Option String) : List (String × String) :=
  match v with
  | some s => if s = "" then [] else [(key, s)]
  | none => []

/-- A request as handed to the transport: method, endpoint path, query
parameters, JSON body, file attachment. -/
structure OutboundRequest where
  method : String
  endpoint : String
  params : List (String × String)
  jsonBody : Option Json
  files : Option FileAttachment

/-- The request `get_live_sessions` builds (lines 367-383). -/
def get_live_sessions_req (station_id : Option String) : OutboundRequest :=
  ⟨"GET", "/live/sessions", optFilterParam "station_id" station_id, none, none⟩

/-- The request `get_now_playing` builds (lines 473-492). -/
def get_now_playing_req (station_id : Option String) : OutboundRequest :=
  ⟨"GET", "/analytics/now-playing", optFilterParam "station_id" station_id, none, none⟩

/-- The request `get_listeners` builds (lines 494-507). -/
def get_listeners_req (station_id : Option String) : OutboundRequest :=
  ⟨"GET", "/analytics/listeners", optFilterParam "station_id" station_id, none, none⟩

/-- The request `get_networks` builds (lines 768-782). -/
def get_networks_req (owner_id : Option String) : OutboundRequest :=
  ⟨"GET", "/networks", optFilterParam "owner_id" owner_id, none, none⟩

/-- Modelled from the spec: the credential sum type of section 3 - the
Python example file under src only implements the API-key variant, and the
bearer-token variant and `login` exist only in the design document
(sections 4.1 and 6). -/
inductive Credential where
  | apiKey (key : String)
  | bearerToken (token : String) (expiresAt : Option String)

/-- Modelled from the spec: `Credential.buildHeaders` (section 4.1) - the
JSON content type as a baseline, then `Authorization: Bearer <token>` for
the bearer variant or `X-API-Key: <key>` for the api-key variant, never
both. -/
def Credential.buildHeaders : Credential → List (String × String)
  | Credential.apiKey k =>
    [("Content-Type", "application/json"), ("X-API-Key", k)]
  | Credential.bearerToken t _ =>
    [("Content-Type", "application/json"), ("Authorization", "Bearer " ++ t)]

/-- Modelled from the spec: the login response shape
`POST /auth/login -> token, optional expires_at` (section 6). -/
structure LoginResponse where
  token : String
  expires_at : Option String

/-- Modelled from the spec: `login` (section 4.1) - on success the active
credential is replaced wholesale by a bearer-token credential built from
the response token and optional expiry; on an error status the error
propagates and no credential is produced. -/
def login (_old : Credential) (backend : Except GrimnirAPIError LoginResponse) :
    Except GrimnirAPIError Credential :=
  match backend with
  | Except.ok r => Except.ok (Credential.bearerToken r.token r.expires_at)
  | Except.error e => Except.error e

/-- Modelled from the spec: the dispatcher header set (section 4.2) -
`Credential.buildHeaders()`, with the JSON content type removed when a file
attachment is present. -/
def requestHeadersFor (c : Credential) (hasFiles : Bool) : List (String × String) :=
  if hasFiles then c.buildHeaders.filter (fun p => p.1 != "Content-Type")
  else c.buildHeaders

theorem digitChar_isDigit {d : Nat} (hd : d < 10) : (digitChar d).isDigit = true := by
  interval_cases d <;> decide

theorem digitVal_digitChar {d : Nat} (hd : d < 10) : digitVal (digitChar d) = d := by
  interval_cases d <;> decide

theorem digitChar_ne_minus {d : Nat} (hd : d < 10) : digitChar d ≠ '-' := by
  interval_cases d <;> decide

theorem digitChar_ne_rbracket {d : Nat} (hd : d < 10) : digitChar d ≠ ']' := by
  interval_cases d <;> decide

theorem renderNat_shape (n : Nat) : ∃ d t, d < 10 ∧ renderNat n = digitChar d :: t := by
  induction n using Nat.strong_induction_on with
  | _ n ih =>
    rw [renderNat]
    split
    · exact ⟨n, [], by omega, rfl⟩
    · rename_i h
      obtain ⟨d, t, hd, ht⟩ := ih (n / 10) (Nat.div_lt_self (by omega) (by omega))
      exact ⟨d, t ++ [digitChar (n % 10)], hd, by rw [ht]; rfl⟩

theorem renderNat_ne_nil (n : Nat) : renderNat n ≠ [] := by
  obtain ⟨d, t, _, ht⟩ := renderNat_shape n
  simp [ht]

theorem renderNat_all_digits (n : Nat) : ∀ c ∈ renderNat n, c.isDigit = true := by
  induction n using Nat.strong_induction_on with
  | _ n ih =>
    rw [renderNat]
    split
    · rename_i h
      intro c hc
      simp only [List.mem_singleton] at hc
      subst hc
      exact digitChar_isDigit h
    · rename_i h
      intro c hc
      rcases List.mem_append.mp hc with h1 | h2
      · exact ih (n / 10) (Nat.div_lt_self (by omega) (by omega)) c h1
      · simp only [List.mem_singleton] at h2
        subst h2
        exact digitChar_isDigit (Nat.mod_lt _ (by omega))

theorem renderNat_foldl (n : Nat) :
    ∀ a : Nat, (renderNat n).foldl (fun x c => 10 * x + digitVal c) a =
      a * 10 ^ (renderNat n).length + n := by
  induction n using Nat.strong_induction_on with
  | _ n ih =>
    intro a
    rw [renderNat]
    split
    · rename_i h
      simp [List.foldl, digitVal_digitChar h]
      ring
    · rename_i h
      rw [List.foldl_append, ih (n / 10) (Nat.div_lt_self (by omega) (by omega)) a]
      simp only [List.foldl, List.length_append, List.length_cons, List.length_nil]
      rw [digitVal_digitChar (Nat.mod_lt _ (by omega))]
      have hdm : 10 * (n / 10) + n % 10 = n := Nat.div_add_mod n 10
      have hp : 10 ^ ((renderNat (n / 10)).length + (0 + 1)) =
          10 ^ (renderNat (n / 10)).length * 10 := by
        rw [Nat.zero_add, pow_succ]
      rw [hp]
      ring_nf
      omega

theorem parseNatDigits_renderNat (n : Nat) : parseNatDigits (renderNat n) = n := by
  unfold parseNatDigits
  rw [renderNat_foldl n 0]
  simp

theorem takeDigits_append (l R : List Char) (hl : ∀ c ∈ l, c.isDigit = true)
    (hR : ∀ c, R.head? = some c → c.isDigit = false) :
    takeDigits (l ++ R) = (l, R) := by
  induction l with
  | nil =>
    simp only [List.nil_append]
    cases R with
    | nil => rfl
    | cons c t =>
      rw [takeDigits]
      rw [hR c rfl]
      simp
  | cons c l' ihl =>
    have hc : c.isDigit = true := hl c (List.mem_cons_self c l')
    rw [List.cons_append, takeDigits, hc]
    simp only [if_true]
    rw [ihl (fun x hx => hl x (List.mem_cons_of_mem c hx))]

theorem parseNumber_renderInt (i : Int) (R : List Char)
    (hR : ∀ c, R.head? = some c → c.isDigit = false) :
    parseNumber (renderInt i ++ R) = some (i, R) := by
  have hneA : (renderNat i.natAbs).isEmpty = false := by
    obtain ⟨d, t, hd, hsh⟩ := renderNat_shape i.natAbs
    rw [hsh]; rfl
  have hneT : (renderNat i.toNat).isEmpty = false := by
    obtain ⟨d, t, hd, hsh⟩ := renderNat_shape i.toNat
    rw [hsh]; rfl
  have htdA : takeDigits (renderNat i.natAbs ++ R) = (renderNat i.natAbs, R) :=
    takeDigits_append _ _ (renderNat_all_digits _) hR
  have htdT : takeDigits (renderNat i.toNat ++ R) = (renderNat i.toNat, R) :=
    takeDigits_append _ _ (renderNat_all_digits _) hR
  by_cases hi : i < 0
  · rw [renderInt, if_pos hi, List.cons_append, parseNumber]
    simp only [List.head?_cons, List.tail_cons, if_pos rfl, if_true]
    rw [htdA]
    simp only [hneA, Bool.false_eq_true, if_false, parseNatDigits_renderNat,
      Option.some.injEq, Prod.mk.injEq, and_true]
    omega
  · rw [renderInt, if_neg hi, parseNumber]
    have hhead : ¬((renderNat i.toNat ++ R).head? = some '-') := by
      obtain ⟨d, t, hd, hsh⟩ := renderNat_shape i.toNat
      rw [hsh]
      simp only [List.cons_append, List.head?_cons, Option.some.injEq]
      exact digitChar_ne_minus hd
    rw [if_neg hhead, htdT]
    simp only [hneT, Bool.false_eq_true, if_false, parseNatDigits_renderNat,
      Option.some.injEq, Prod.mk.injEq, and_true]
    omega

theorem parseStringBody_escapeList (l : List Char) (R : List Char) :
    parseStringBody (escapeList l ++ '"' :: R) = some (l, R) := by
  induction l with
  | nil =>
    rw [escapeList, List.nil_append, parseStringBody.eq_def]
    rfl
  | cons c l' ih =>
    rw [escapeList]
    split
    · rename_i h
      rw [List.cons_append, List.cons_append, parseStringBody.eq_def]
      dsimp only
      rw [if_neg (by decide : ¬('\\' = '"')), if_pos rfl, ih]
      rfl
    · rename_i h
      push_neg at h
      rw [List.cons_append, parseStringBody.eq_def]
      dsimp only
      rw [if_neg h.1, if_neg h.2, ih]
      rfl

theorem renderInt_shape (i : Int) :
    ∃ c t, renderInt i = c :: t ∧ (c.isDigit = true ∨ c = '-') ∧ c ≠ ']' := by
  by_cases hi : i < 0
  · exact ⟨'-', renderNat i.natAbs, by rw [renderInt, if_pos hi], Or.inr rfl, by decide⟩
  · obtain ⟨d, t, hd, hsh⟩ := renderNat_shape i.toNat
    exact ⟨digitChar d, t, by rw [renderInt, if_neg hi, hsh],
      Or.inl (digitChar_isDigit hd), digitChar_ne_rbracket hd⟩

theorem render_cons (v : Json) : ∃ c t, Json.render v = c :: t ∧ c ≠ ']' := by
  cases v with
  | null => exact ⟨'n', ['u', 'l', 'l'], rfl, by decide⟩
  | bool b =>
    cases b with
    | false => exact ⟨'f', ['a', 'l', 's', 'e'], rfl, by decide⟩
    | true => exact ⟨'t', ['r', 'u', 'e'], rfl, by decide⟩
  | num i =>
    obtain ⟨c, t, hsh, _, hne⟩ := renderInt_shape i
    exact ⟨c, t, by rw [Json.render, hsh], hne⟩
  | str s => exact ⟨'"', escapeList s.data ++ ['"'], rfl, by decide⟩
  | arr xs => exact ⟨'[', renderElems xs ++ [']'], rfl, by decide⟩
  | obj kvs => exact ⟨'{', renderFields kvs ++ ['}'], rfl, by decide⟩

theorem noDigit_elemsTail (xs : List Json) (R : List Char) :
    ∀ c, (renderElemsTail xs ++ ']' :: R).head? = some c → c.isDigit = false := by
  cases xs with
  | nil =>
    intro c hc
    rw [renderElemsTail, List.nil_append, List.head?_cons] at hc
    injection hc with hc'
    subst hc'
    decide
  | cons y ys =>
    intro c hc
    rw [renderElemsTail, List.cons_append, List.head?_cons] at hc
    injection hc with hc'
    subst hc'
    decide

theorem noDigit_fieldsTail (kvs : List (String × Json)) (R : List Char) :
    ∀ c, (renderFieldsTail kvs ++ '}' :: R).head? = some c → c.isDigit = false := by
  cases kvs with
  | nil =>
    intro c hc
    rw [renderFieldsTail, List.nil_append, List.head?_cons] at hc
    injection hc with hc'
    subst hc'
    decide
  | cons kv kvs' =>
    intro c hc
    rw [renderFieldsTail, List.cons_append, List.head?_cons] at hc
    injection hc with hc'
    subst hc'
    decide

theorem parse_render_mutual (fuel : Nat) :
    (∀ (v : Json) (R : List Char), (Json.render v).length ≤ fuel →
      (∀ c, R.head? = some c → c.isDigit = false) →
      parseVal fuel (Json.render v ++ R) = some (v, R)) ∧
    (∀ (xs : List Json) (R : List Char), (renderElems xs).length + 1 ≤ fuel →
      parseElems fuel (renderElems xs ++ ']' :: R) = some (xs, R)) ∧
    (∀ (xs : List Json) (R : List Char), (renderElemsTail xs).length + 1 ≤ fuel →
      parseElemsTail fuel (renderElemsTail xs ++ ']' :: R) = some (xs, R)) ∧
    (∀ (kvs : List (String × Json)) (R : List Char), (renderFields kvs).length + 1 ≤ fuel →
      parseFields fuel (renderFields kvs ++ '}' :: R) = some (kvs, R)) ∧
    (∀ (kvs : List (String × Json)) (R : List Char), (renderFieldsTail kvs).length + 1 ≤ fuel →
      parseFieldsTail fuel (renderFieldsTail kvs ++ '}' :: R) = some (kvs, R)) := by
  induction fuel using Nat.strong_induction_on with
  | _ fuel IH =>
    refine ⟨?_, ?_, ?_, ?_, ?_⟩
    · intro v R hlen hR
      cases fuel with
      | zero =>
        obtain ⟨c, t, hsh, -⟩ := render_cons v
        rw [hsh, List.length_cons] at hlen
        omega
      | succ f =>
        cases v with
        | null => rfl
        | bool b => cases b with
          | false => rfl
          | true => rfl
        | num i =>
          obtain ⟨c, t, hsh, hcd, -⟩ := renderInt_shape i
          rw [Json.render, hsh, List.cons_append, parseVal.eq_def]
          dsimp only
          rw [if_pos hcd, ← List.cons_append, ← hsh, parseNumber_renderInt i R hR]
          rfl
        | str s =>
          rw [Json.render, List.cons_append, List.append_assoc, List.singleton_append,
            parseVal.eq_def]
          dsimp only
          rw [if_neg (by decide), if_pos rfl, parseStringBody_escapeList]
          rfl
        | arr xs =>
          have hlen' : (renderElems xs).length + 1 ≤ f := by
            rw [Json.render, List.length_cons, List.length_append] at hlen
            simp at hlen
            omega
          rw [Json.render, List.cons_append, List.append_assoc, List.singleton_append,
            parseVal.eq_def]
          dsimp only
          rw [if_neg (by decide), if_neg (by decide), if_pos rfl,
            (IH f (Nat.lt_succ_self f)).2.1 xs R hlen']
          rfl
        | obj kvs =>
          have hlen' : (renderFields kvs).length + 1 ≤ f := by
            rw [Json.render, List.length_cons, List.length_append] at hlen
            simp at hlen
            omega
          rw [Json.render, List.cons_append, List.append_assoc, List.singleton_append,
            parseVal.eq_def]
          dsimp only
          rw [if_neg (by decide), if_neg (by decide), if_neg (by decide), if_pos rfl,
            (IH f (Nat.lt_succ_self f)).2.2.2.1 kvs R hlen']
          rfl
    · intro xs R hlen
      cases fuel with
      | zero => omega
      | succ f =>
        cases xs with
        | nil => exact rfl
        | cons x xs' =>
          obtain ⟨c, t, hsh, hne⟩ := render_cons x
          have hxlen : (Json.render x).length = t.length + 1 := by
            rw [hsh, List.length_cons]
          have hb : (Json.render x).length ≤ f ∧ (renderElemsTail xs').length + 1 ≤ f := by
            rw [renderElems, List.length_append] at hlen
            omega
          have hhead : (Json.render x ++ (renderElemsTail xs' ++ ']' :: R)).head? = some c := by
            rw [hsh, List.cons_append, List.head?_cons]
          rw [renderElems, List.append_assoc, parseElems.eq_def]
          dsimp only
          rw [if_neg (by rw [hhead]; intro hEq; injection hEq with hEq'; exact hne hEq'),
            (IH f (Nat.lt_succ_self f)).1 x (renderElemsTail xs' ++ ']' :: R) hb.1
              (noDigit_elemsTail xs' R)]
          dsimp only
          rw [(IH f (Nat.lt_succ_self f)).2.2.1 xs' R hb.2]
    · intro xs R hlen
      cases fuel with
      | zero => omega
      | succ f =>
        cases xs with
        | nil => exact rfl
        | cons x xs' =>
          have hb : (Json.render x).length ≤ f ∧ (renderElemsTail xs').length + 1 ≤ f := by
            rw [renderElemsTail, List.length_cons, List.length_append] at hlen
            omega
          rw [renderElemsTail, List.cons_append, List.append_assoc, parseElemsTail.eq_def]
          dsimp only [List.head?_cons, List.tail_cons]
          rw [if_neg (by decide), if_pos rfl,
            (IH f (Nat.lt_succ_self f)).1 x (renderElemsTail xs' ++ ']' :: R) hb.1
              (noDigit_elemsTail xs' R)]
          dsimp only
          rw [(IH f (Nat.lt_succ_self f)).2.2.1 xs' R hb.2]
    · intro kvs R hlen
      cases fuel with
      | zero => omega
      | succ f =>
        cases kvs with
        | nil => exact rfl
        | cons kv kvs' =>
          obtain ⟨k, v⟩ := kv
          have hb : (Json.render v).length ≤ f ∧ (renderFieldsTail kvs').length + 1 ≤ f := by
            rw [renderFields, List.length_cons, List.length_append, List.length_cons,
              List.length_cons, List.length_append] at hlen
            omega
          rw [renderFields, List.cons_append, List.append_assoc, List.cons_append,
            List.cons_append, List.append_assoc, parseFields.eq_def]
          dsimp only [List.head?_cons, List.tail_cons]
          rw [if_neg (by decide), if_pos rfl, parseStringBody_escapeList]
          dsimp only [List.head?_cons, List.tail_cons]
          rw [if_pos rfl,
            (IH f (Nat.lt_succ_self f)).1 v (renderFieldsTail kvs' ++ '}' :: R) hb.1
              (noDigit_fieldsTail kvs' R)]
          dsimp only
          rw [(IH f (Nat.lt_succ_self f)).2.2.2.2 kvs' R hb.2]
    · intro kvs R hlen
      cases fuel with
      | zero => omega
      | succ f =>
        cases kvs with
        | nil => exact rfl
        | cons kv kvs' =>
          obtain ⟨k, v⟩ := kv
          have hb : (Json.render v).length ≤ f ∧ (renderFieldsTail kvs').length + 1 ≤ f := by
            rw [renderFieldsTail, List.length_cons, List.length_cons, List.length_append,
              List.length_cons, List.length_cons, List.length_append] at hlen
            omega
          rw [renderFieldsTail, List.cons_append, List.cons_append, List.append_assoc,
            List.cons_append, List.cons_append, List.append_assoc, parseFieldsTail.eq_def]
          dsimp only [List.head?_cons, List.tail_cons]
          rw [if_neg (by decide), if_pos rfl, if_pos rfl, parseStringBody_escapeList]
          dsimp only [List.head?_cons, List.tail_cons]
          rw [if_pos rfl,
            (IH f (Nat.lt_succ_self f)).1 v (renderFieldsTail kvs' ++ '}' :: R) hb.1
              (noDigit_fieldsTail kvs' R)]
          dsimp only
          rw [(IH f (Nat.lt_succ_self f)).2.2.2.2 kvs' R hb.2]

theorem Json.parse_render (v : Json) :
    Json.parse (String.mk (Json.render v)) = some v := by
  have h := (parse_render_mutual (Json.render v).length).1 v []
    (le_refl _) (fun c hc => by simp at hc)
  rw [List.append_nil] at h
  unfold Json.parse
  rw [show (String.mk (Json.render v)).length = (Json.render v).length from rfl,
    show (String.mk (Json.render v)).data = Json.render v from rfl, h]

theorem render_string_ne_empty (v : Json) : String.mk (Json.render v) ≠ "" := by
  obtain ⟨c, t, hsh, -⟩ := render_cons v
  intro h
  have hd := congrArg String.data h
  rw [hsh] at hd
  simp at hd

theorem requestResult_render (ep : String) (sc : Nat) (v : Json) (h : sc < 400) :
    requestResult ep ⟨sc, String.mk (Json.render v)⟩ = Except.ok v := by
  unfold requestResult
  rw [if_neg (by simp only []; omega), if_neg (render_string_ne_empty v),
    Json.parse_render]

/-- C1: for every endpoint and every response with status code at least 400,
the dispatch translation raises `GrimnirAPIError` carrying exactly that
status code, the body text unmodified (never JSON-decoded), and the
endpoint path; no success value is returned. -/
theorem request_error_translation (ep : String) (resp : RawResponse)
    (h : 400 ≤ resp.status_code) :
    requestResult ep resp =
      Except.error (RequestError.apiError ⟨resp.status_code, resp.text, ep⟩) := by
  unfold requestResult
  rw [if_pos h]

theorem request_error_translation_witness :
    400 ≤ (RawResponse.mk 404 "station not found").status_code ∧
    requestResult ("/stations") (RawResponse.mk 404 "station not found") =
      Except.error (RequestError.apiError
        (GrimnirAPIError.mk 404 "station not found" "/stations")) :=
  ⟨by decide,
    request_error_translation ("/stations") (RawResponse.mk 404 "station not found")
      (by decide)⟩

/-- C7: on the JSON-contract success path (status below 400) an empty body
yields the empty mapping, and a non-empty valid JSON body parses back to
exactly the JSON value that was serialized (round-trip law). -/
theorem json_success_roundtrip (ep : String) (sc : Nat) (h : sc < 400) :
    requestResult ep ⟨sc, ""⟩ = Except.ok (Json.obj []) ∧
    ∀ v : Json, requestResult ep ⟨sc, String.mk (Json.render v)⟩ = Except.ok v := by
  constructor
  · unfold requestResult
    rw [if_neg (by simp only []; omega), if_pos rfl]
  · intro v
    exact requestResult_render ep sc v h

theorem json_success_roundtrip_witness :
    (200 : Nat) < 400 ∧ requestResult ("/stations") ⟨200, ""⟩ = Except.ok (Json.obj []) :=
  ⟨by decide, (json_success_roundtrip ("/stations") 200 (by decide)).1⟩

/-- C8: a successful stations response without the envelope key yields the
empty list (never an error), and one with the key yields exactly the list
stored under it: concretely for the two bodies of the claim, and in general
for any decoded JSON object. -/
theorem get_stations_envelope :
    get_stations ⟨200, "\x7b\x7d"⟩ = Except.ok (Json.arr []) ∧
    get_stations ⟨200, "\x7b\"stations\":[\x7b\"id\":\"s1\",\"name\":\"Test FM\"\x7d]\x7d"⟩ =
      Except.ok (Json.arr [Json.obj [("id", Json.str "s1"), ("name", Json.str "Test FM")]]) ∧
    (∀ (sc : Nat) (kvs : List (String × Json)), sc < 400 →
      lookupField kvs "stations" = none →
      get_stations ⟨sc, String.mk (Json.render (Json.obj kvs))⟩ =
        Except.ok (Json.arr [])) ∧
    (∀ (sc : Nat) (kvs : List (String × Json)) (v : Json), sc < 400 →
      lookupField kvs "stations" = some v →
      get_stations ⟨sc, String.mk (Json.render (Json.obj kvs))⟩ = Except.ok v) := by
  refine ⟨rfl, rfl, ?_, ?_⟩
  · intro sc kvs hsc hlk
    unfold get_stations
    rw [requestResult_render _ _ _ hsc]
    dsimp only [Except.map]
    rw [Json.getKey, hlk]
    rfl
  · intro sc kvs v hsc hlk
    unfold get_stations
    rw [requestResult_render _ _ _ hsc]
    dsimp only [Except.map]
    rw [Json.getKey, hlk]
    rfl

/-- C2 (code-bug evidence): `export_schedule_ical` returns the response
body text verbatim whatever the status code - at status 500 the error page
comes back as the result and no `ApiError` is raised, while a success body
that is not JSON is returned verbatim with no decode step. -/
theorem export_ical_skips_error_check :
    export_schedule_ical ⟨500, "Internal Server Error"⟩ =
      Except.ok "Internal Server Error" ∧
    export_schedule_ical ⟨200, "BEGIN:VCALENDAR\nEND:VCALENDAR"⟩ =
      Except.ok "BEGIN:VCALENDAR\nEND:VCALENDAR" :=
  ⟨rfl, rfl⟩

/-- C3 (modelled from the spec): after a successful login the client
credential is replaced by a bearer-token credential built from the
response token, and every subsequent request carries the matching
`Authorization: Bearer` header. -/
theorem login_bearer_headers (old : Credential) (r : LoginResponse) (hasFiles : Bool) :
    login old (Except.ok r) = Except.ok (Credential.bearerToken r.token r.expires_at) ∧
    ("Authorization", "Bearer " ++ r.token) ∈
      requestHeadersFor (Credential.bearerToken r.token r.expires_at) hasFiles := by
  refine ⟨rfl, ?_⟩
  have hmem : ("Authorization", "Bearer " ++ r.token) ∈
      (Credential.bearerToken r.token r.expires_at).buildHeaders :=
    List.mem_cons_of_mem _ (List.mem_cons_self _ _)
  cases hasFiles with
  | false =>
    unfold requestHeadersFor
    rw [if_neg (by decide)]
    exact hmem
  | true =>
    unfold requestHeadersFor
    rw [if_pos rfl]
    exact List.mem_filter.mpr ⟨hmem, rfl⟩

/-- C4: a client constructed with a (non-empty) API key sends `X-API-Key`
with exactly that key on every request, with or without a file attachment,
and never emits a bearer-token Authorization header. -/
theorem api_key_header_only (k : String) (hasFiles : Bool) (hk : k ≠ "") :
    ("X-API-Key", k) ∈ requestHeaders (some k) hasFiles ∧
    ∀ v : String, ("Authorization", v) ∉ requestHeaders (some k) hasFiles := by
  have hdef : GrimnirClient._headers (some k) =
      [("Content-Type", "application/json"), ("X-API-Key", k)] := by
    unfold GrimnirClient._headers
    dsimp only
    rw [if_neg hk]
  have hmem : ("X-API-Key", k) ∈ GrimnirClient._headers (some k) := by
    rw [hdef]
    exact List.mem_cons_of_mem _ (List.mem_cons_self _ _)
  have hnot : ∀ v : String, ("Authorization", v) ∉ GrimnirClient._headers (some k) := by
    intro v hm
    rw [hdef] at hm
    rcases List.mem_cons.mp hm with h1 | hm2
    · injection h1 with h1a h1b
      exact absurd h1a (by decide)
    rcases List.mem_cons.mp hm2 with h2 | h3
    · injection h2 with h2a h2b
      exact absurd h2a (by decide)
    · simp at h3
  cases hasFiles with
  | false =>
    unfold requestHeaders
    rw [if_neg (by decide)]
    exact ⟨hmem, hnot⟩
  | true =>
    unfold requestHeaders
    rw [if_pos rfl]
    refine ⟨List.mem_filter.mpr ⟨hmem, rfl⟩, ?_⟩
    intro v hm
    exact hnot v (List.mem_filter.mp hm).1

theorem api_key_header_only_witness :
    ("gr_demo_key" : String) ≠ "" ∧
    ("X-API-Key", "gr_demo_key") ∈ requestHeaders (some ("gr_demo_key")) false :=
  ⟨by decide, (api_key_header_only ("gr_demo_key") false (by decide)).1⟩

/-- C5: the header set sent with a file attachment never contains the JSON
content type, and the header set sent without one always does, whatever
the credential key. -/
theorem content_type_exclusion (api_key : Option String) :
    ("Content-Type", "application/json") ∉ requestHeaders api_key true ∧
    ("Content-Type", "application/json") ∈ requestHeaders api_key false := by
  constructor
  · unfold requestHeaders
    rw [if_pos rfl]
    intro hm
    exact absurd (List.mem_filter.mp hm).2 (by simp)
  · unfold requestHeaders
    rw [if_neg (by decide)]
    unfold GrimnirClient._headers
    exact List.mem_cons_self _ _

/-- C6: no request carries both a JSON body and a file attachment - when a
file is passed the JSON body argument is dropped, and at most one of the
two body encodings is ever handed to the transport. -/
theorem body_exclusivity (data : Option Json) (f : FileAttachment)
    (files : Option FileAttachment) :
    (sentPayload data (some f)).1 = none ∧
    ((sentPayload data files).1.isSome && (sentPayload data files).2.isSome) = false := by
  constructor
  · rfl
  · cases files with
    | none => simp [sentPayload]
    | some g => simp [sentPayload]

/-- C9 (counterexample): with a trailing-slash base URL the request target
differs from the plain concatenation of the configured base URL, the fixed
prefix `/api/v1` and the endpoint path, because the constructor strips the
trailing slashes first. -/
theorem url_concat_counterexample :
    requestUrl ("https://radio.example.com/") ("/stations") ≠
      "https://radio.example.com/" ++ "/api/v1" ++ "/stations" := by
  decide

/-- C9 (amended): the absolute target is the trailing-slash-stripped base
URL, then `/api/v1`, then the path; for every configured base URL that
does not end in a slash this is exactly `baseUrl ++ "/api/v1" ++ path`. -/
theorem url_concat (base ep : String) (h : base.data.getLast? ≠ some '/') :
    requestUrl base ep = base ++ "/api/v1" ++ ep := by
  have hdrop : base.data.reverse.dropWhile (fun c => c == '/') = base.data.reverse := by
    cases hrev : base.data.reverse with
    | nil => rfl
    | cons c t =>
      have hc : base.data.getLast? = some c := by
        rw [← List.head?_reverse, hrev]
        rfl
      have hcc : (c == '/') = false := by
        cases hcc2 : c == '/' with
        | false => rfl
        | true =>
          exfalso
          apply h
          rw [hc, eq_of_beq hcc2]
      rw [List.dropWhile_cons, hcc]
      simp
  have hid : pyRstripSlash base = base := by
    unfold pyRstripSlash
    rw [hdrop, List.reverse_reverse]
  unfold requestUrl apiUrl
  rw [hid]

theorem url_concat_witness :
    ("https://radio.example.com" : String).data.getLast? ≠ some '/' ∧
    requestUrl ("https://radio.example.com") ("/stations") =
      "https://radio.example.com" ++ "/api/v1" ++ "/stations" :=
  ⟨by decide, url_concat ("https://radio.example.com") ("/stations") (by decide)⟩

/-- C10: for the four optional-filter operations the query parameter is
included iff the supplied value is truthy, and an empty-string filter
builds exactly the same request as omitting the argument. -/
theorem optional_filter_truthiness :
    (get_live_sessions_req (some "") = get_live_sessions_req none) ∧
    (get_now_playing_req (some "") = get_now_playing_req none) ∧
    (get_listeners_req (some "") = get_listeners_req none) ∧
    (get_networks_req (some "") = get_networks_req none) ∧
    (∀ o : Option String,
      (((get_live_sessions_req o).params.lookup "station_id").isSome = truthyStr o) ∧
      (((get_now_playing_req o).params.lookup "station_id").isSome = truthyStr o) ∧
      (((get_listeners_req o).params.lookup "station_id").isSome = truthyStr o) ∧
      (((get_networks_req o).params.lookup "owner_id").isSome = truthyStr o)) := by
  have hkey : ∀ (key : String) (o : Option String),
      ((optFilterParam key o).lookup key).isSome = truthyStr o := by
    intro key o
    cases o with
    | none => rfl
    | some s =>
      by_cases hs : s = ""
      · subst hs
        rfl
      · unfold optFilterParam
        dsimp only
        rw [if_neg hs]
        have h1 : List.lookup key [(key, s)] = some s := by
          simp [List.lookup]
        rw [h1]
        have h2 : (s == "") = false := beq_eq_false_iff_ne.mpr hs
        unfold truthyStr
        dsimp only
        rw [h2]
        rfl
  exact ⟨rfl, rfl, rfl, rfl, fun o =>
    ⟨hkey ("station_id") o, hkey ("station_id") o, hkey ("station_id") o,
      hkey ("owner_id") o⟩⟩
